import Mathlib

/-!
Verification of a terminal Game of Life implementation (`src/main.rs`).

The Rust source is shallowly embedded: machine integers become `Int`/`Nat`
with explicit wrapping where the source narrows or wraps (`i16ofU32` is the
`u32 as i16` cast, `u16sub` is wrapping `u16` subtraction), the `HashSet` of
occupied cells becomes a `Finset`, the neighbour-count `HashMap` becomes the
multiplicity function it accumulates, and the thread-local random number
generator becomes an explicit stream of draws.
-/

/-- The `u32 as i16` cast: two's-complement truncation to 16 bits. -/
def i16ofU32 (n : Nat) : Int :=
  if n % 65536 < 32768 then ((n % 65536 : Nat) : Int)
  else ((n % 65536 : Nat) : Int) - 65536

/-- A grid coordinate (`struct Point`); the source stores `i16` components,
modelled as `Int` (the in-bounds theorems carry the `i16` range as an
explicit hypothesis where the source relies on it). -/
structure Point where
  x : Int
  y : Int
deriving DecidableEq

lemma Point.eq_iff (p q : Point) : p = q ↔ p.x = q.x ∧ p.y = q.y := by
  cases p; cases q; simp

/-- `Point::bound`: clamp `x` into `[min_x, max_x]` and `y` into
`[min_y, max_y]`, each via an if / else-if pair exactly as in the source. -/
def Point.bound (p : Point) (min_x min_y max_x max_y : Int) : Point :=
  { x := if p.x < min_x then min_x else if p.x > max_x then max_x else p.x,
    y := if p.y < min_y then min_y else if p.y > max_y then max_y else p.y }

/-- `struct Board`: `width` and `height` are `u32` (modelled as `Nat`; the
wrapping points are explicit below), `occupied_cells` is a hash set. -/
structure Board where
  width : Nat
  height : Nat
  occupied_cells : Finset Point
deriving DecidableEq

/-- `Board::new`. -/
def Board.new (width height : Nat) : Board :=
  { width := width, height := height, occupied_cells := ∅ }

/-- `Board::init_randomly`: replace `occupied_cells` by a fresh set and
insert `width * height / 4` random points (the `u32` product wraps at
`2 ^ 32` in release mode).  `rng.gen_range(0..k)` yields a uniform value in
`[0, k)`; the RNG is modelled as an arbitrary stream `draws` of pairs of
naturals, reduced into range with `%`.  (The source's range bound is
`width as i16`; the cast's failure mode for widths not representable in
`i16` is modelled in `Board.init_randomly_checked`, and every theorem using
this total version assumes `width, height ≤ 32767`, where the bound equals
`width` resp. `height`.) -/
def Board.init_randomly (b : Board) (draws : Nat → Nat × Nat) : Board :=
  let fresh := (Finset.range (b.width * b.height % 4294967296 / 4)).image
    (fun i => Point.mk (((draws i).1 % b.width : Nat) : Int)
      (((draws i).2 % b.height : Nat) : Int))
  { b with occupied_cells := fresh }

/-- `Board::init_randomly` with its panic behaviour: each loop iteration
calls `rng.gen_range(0..self.width as i16)` and
`rng.gen_range(0..self.height as i16)`, which panic when the upper bound is
`≤ 0` — that is, whenever at least one trial runs and a dimension's `i16`
cast is nonpositive. -/
def Board.init_randomly_checked (b : Board) (draws : Nat → Nat × Nat) :
    Option Board :=
  if 0 < b.width * b.height % 4294967296 / 4 ∧
      (i16ofU32 b.width ≤ 0 ∨ i16ofU32 b.height ≤ 0) then
    none
  else
    some (b.init_randomly draws)

/-- The `neighbours` vector built for one occupied cell inside
`Board::update_cells`: the four edge flags, then up to eight pushes in
source order, each guarded by the corresponding flag conjunction. -/
def neighbours (w h : Nat) (c : Point) : List Point :=
  (if ¬c.y = 0 then [Point.mk c.x (c.y - 1)] else []) ++
  (if ¬c.x = i16ofU32 w - 1 then [Point.mk (c.x + 1) c.y] else []) ++
  (if ¬c.y = i16ofU32 h - 1 then [Point.mk c.x (c.y + 1)] else []) ++
  (if ¬c.x = 0 then [Point.mk (c.x - 1) c.y] else []) ++
  (if ¬c.y = 0 ∧ ¬c.x = 0 then [Point.mk (c.x - 1) (c.y - 1)] else []) ++
  (if ¬c.y = 0 ∧ ¬c.x = i16ofU32 w - 1 then [Point.mk (c.x + 1) (c.y - 1)] else []) ++
  (if ¬c.y = i16ofU32 h - 1 ∧ ¬c.x = 0 then [Point.mk (c.x - 1) (c.y + 1)] else []) ++
  (if ¬c.y = i16ofU32 h - 1 ∧ ¬c.x = i16ofU32 w - 1 then [Point.mk (c.x + 1) (c.y + 1)] else [])

/-- The value the `neighbour_counts` hash map holds for `p` at the end of the
accumulation loop of `Board::update_cells`: each occupied cell increments the
entry of each of its valid neighbours by one, so the final count at `p` is
the number of occupied cells whose neighbour list contains `p` (the missing
entry defaults to 0). -/
def Board.neighbour_counts (b : Board) (p : Point) : Nat :=
  (b.occupied_cells.filter (fun c => p ∈ neighbours b.width b.height c)).card

/-- `Board::update_cells`: the keys of `neighbour_counts` are exactly the
points pushed as a neighbour of some occupied cell; the new occupied set
keeps a key when it is alive with count 2 or 3, or dead with count 3. -/
def Board.update_cells (b : Board) : Board :=
  let keys := b.occupied_cells.biUnion
    (fun c => (neighbours b.width b.height c).toFinset)
  let new_occupied_cells := keys.filter (fun cell =>
    let is_alive := cell ∈ b.occupied_cells
    (is_alive ∧ (b.neighbour_counts cell = 2 ∨ b.neighbour_counts cell = 3)) ∨
      (¬is_alive ∧ b.neighbour_counts cell = 3))
  { b with occupied_cells := new_occupied_cells }

/-! ## Reference definitions for the specification's Conway rule -/

/-- Modelled from the spec: `(x, y)` lies within `[0,width) × [0,height)`. -/
def inBounds (w h : Nat) (p : Point) : Prop :=
  0 ≤ p.x ∧ p.x < (w : Int) ∧ 0 ≤ p.y ∧ p.y < (h : Int)

instance (w h : Nat) (p : Point) : Decidable (inBounds w h p) := by
  unfold inBounds; exact inferInstance

/-- Modelled from the spec: 8-adjacency of two distinct coordinates. -/
def adjacent (c p : Point) : Prop :=
  ¬(c.x = p.x ∧ c.y = p.y) ∧ (c.x - p.x).natAbs ≤ 1 ∧ (c.y - p.y).natAbs ≤ 1

instance (c p : Point) : Decidable (adjacent c p) := by
  unfold adjacent; exact inferInstance

/-- Modelled from the spec: the number of occupied in-bounds 8-adjacent
neighbours of `p` — the reference neighbour count of the Conway rule. -/
def refCount (b : Board) (p : Point) : Nat :=
  (b.occupied_cells.filter
    (fun c => adjacent c p ∧ inBounds b.width b.height c)).card

/-- All in-bounds coordinates of a `w × h` grid. -/
def gridPoints (w h : Nat) : Finset Point :=
  (Finset.range w ×ˢ Finset.range h).image
    (fun q => Point.mk (q.1 : Int) (q.2 : Int))

/-- Modelled from the spec: the reference next generation — an in-bounds
cell is alive next iff it is alive with 2 or 3 occupied in-bounds
neighbours, or dead with exactly 3. -/
def conwayNext (b : Board) : Finset Point :=
  (gridPoints b.width b.height).filter (fun p =>
    (p ∈ b.occupied_cells ∧ (refCount b p = 2 ∨ refCount b p = 3)) ∨
      (p ∉ b.occupied_cells ∧ refCount b p = 3))

/-! ## Basic lemmas about the cast and neighbour enumeration -/

lemma i16ofU32_eq_of_le (n : Nat) (hn : n ≤ 32767) : i16ofU32 n = (n : Int) := by
  unfold i16ofU32
  rw [Nat.mod_eq_of_lt (by omega), if_pos (by omega)]

lemma mem_ite_singleton {α : Type} (q : Prop) [Decidable q] (a p : α) :
    (p ∈ if q then [a] else ([] : List α)) ↔ q ∧ p = a := by
  split
  next hq => simp [hq]
  next hq => simp [hq]

set_option maxHeartbeats 1000000 in
/-- For an in-bounds cell of a board with `i16`-representable positive
dimensions, the neighbour list contains exactly the in-bounds 8-adjacent
coordinates. -/
lemma mem_neighbours_iff {w h : Nat} (c p : Point)
    (hw1 : 1 ≤ w) (hw2 : w ≤ 32767) (hh1 : 1 ≤ h) (hh2 : h ≤ 32767)
    (hc : inBounds w h c) :
    p ∈ neighbours w h c ↔ adjacent c p ∧ inBounds w h p := by
  obtain ⟨hc1, hc2, hc3, hc4⟩ := hc
  unfold neighbours
  rw [i16ofU32_eq_of_le w hw2, i16ofU32_eq_of_le h hh2]
  simp only [List.mem_append, mem_ite_singleton, Point.eq_iff, adjacent, inBounds]
  omega

lemma mem_gridPoints_iff (w h : Nat) (p : Point) :
    p ∈ gridPoints w h ↔ inBounds w h p := by
  unfold gridPoints inBounds
  simp only [Finset.mem_image, Finset.mem_product, Finset.mem_range, Point.eq_iff]
  constructor
  · rintro ⟨⟨i, j⟩, ⟨hi, hj⟩, hx, hy⟩
    simp only at hx hy
    omega
  · rintro ⟨h1, h2, h3, h4⟩
    exact ⟨⟨p.x.toNat, p.y.toNat⟩, ⟨by omega, by omega⟩, by simp; omega, by simp; omega⟩

lemma neighbour_counts_eq_refCount {b : Board}
    (hw1 : 1 ≤ b.width) (hw2 : b.width ≤ 32767)
    (hh1 : 1 ≤ b.height) (hh2 : b.height ≤ 32767)
    (hinv : ∀ q ∈ b.occupied_cells, inBounds b.width b.height q)
    {p : Point} (hp : inBounds b.width b.height p) :
    b.neighbour_counts p = refCount b p := by
  unfold Board.neighbour_counts refCount
  congr 1
  apply Finset.filter_congr
  intro c hc
  rw [mem_neighbours_iff c p hw1 hw2 hh1 hh2 (hinv c hc)]
  constructor
  · rintro ⟨ha, -⟩; exact ⟨ha, hinv c hc⟩
  · rintro ⟨ha, -⟩; exact ⟨ha, hp⟩

lemma refCount_pos_iff (b : Board) (p : Point) :
    0 < refCount b p ↔
      ∃ c ∈ b.occupied_cells, adjacent c p ∧ inBounds b.width b.height c := by
  unfold refCount
  rw [Finset.card_pos, Finset.filter_nonempty_iff]

lemma mem_update_cells_iff {b : Board}
    (hw1 : 1 ≤ b.width) (hw2 : b.width ≤ 32767)
    (hh1 : 1 ≤ b.height) (hh2 : b.height ≤ 32767)
    (hinv : ∀ q ∈ b.occupied_cells, inBounds b.width b.height q)
    (p : Point) :
    p ∈ b.update_cells.occupied_cells ↔
      inBounds b.width b.height p ∧
        ((p ∈ b.occupied_cells ∧ (refCount b p = 2 ∨ refCount b p = 3)) ∨
          (p ∉ b.occupied_cells ∧ refCount b p = 3)) := by
  unfold Board.update_cells
  simp only [Finset.mem_filter, Finset.mem_biUnion, List.mem_toFinset]
  constructor
  · rintro ⟨⟨c, hc, hmem⟩, hrule⟩
    have hcp := (mem_neighbours_iff c p hw1 hw2 hh1 hh2 (hinv c hc)).1 hmem
    have hp : inBounds b.width b.height p := hcp.2
    rw [neighbour_counts_eq_refCount hw1 hw2 hh1 hh2 hinv hp] at hrule
    exact ⟨hp, hrule⟩
  · rintro ⟨hp, hrule⟩
    have hpos : 0 < refCount b p := by
      rcases hrule with ⟨-, h | h⟩ | ⟨-, h⟩ <;> omega
    obtain ⟨c, hc, hadj, hcb⟩ := (refCount_pos_iff b p).1 hpos
    refine ⟨⟨c, hc, ?_⟩, ?_⟩
    · exact (mem_neighbours_iff c p hw1 hw2 hh1 hh2 (hinv c hc)).2 ⟨hadj, hp⟩
    · rw [neighbour_counts_eq_refCount hw1 hw2 hh1 hh2 hinv hp]
      exact hrule

lemma update_cells_inBounds {b : Board}
    (hw1 : 1 ≤ b.width) (hw2 : b.width ≤ 32767)
    (hh1 : 1 ≤ b.height) (hh2 : b.height ≤ 32767)
    (hinv : ∀ q ∈ b.occupied_cells, inBounds b.width b.height q) :
    ∀ q ∈ b.update_cells.occupied_cells, inBounds b.width b.height q :=
  fun q hq => ((mem_update_cells_iff hw1 hw2 hh1 hh2 hinv q).1 hq).1

/-- C1: for an in-bounds board of positive `i16`-representable dimensions,
an in-bounds coordinate is occupied after `update_cells` iff it was alive
with 2 or 3 occupied in-bounds 8-adjacent neighbours, or dead with exactly
3; hence the sparse accumulation computes the reference Conway next
generation on the bounded grid. -/
theorem update_cells_matches_conway_rule (b : Board)
    (hw1 : 1 ≤ b.width) (hw2 : b.width ≤ 32767)
    (hh1 : 1 ≤ b.height) (hh2 : b.height ≤ 32767)
    (hinv : ∀ q ∈ b.occupied_cells, inBounds b.width b.height q)
    (p : Point) (hp : inBounds b.width b.height p) :
    (p ∈ b.update_cells.occupied_cells ↔
      (p ∈ b.occupied_cells ∧ (refCount b p = 2 ∨ refCount b p = 3)) ∨
        (p ∉ b.occupied_cells ∧ refCount b p = 3)) ∧
    b.update_cells.occupied_cells = conwayNext b := by
  constructor
  · rw [mem_update_cells_iff hw1 hw2 hh1 hh2 hinv p]
    exact and_iff_right hp
  · ext q
    rw [mem_update_cells_iff hw1 hw2 hh1 hh2 hinv q]
    unfold conwayNext
    rw [Finset.mem_filter, mem_gridPoints_iff]

/-- Witness for C1 at a concrete board and coordinate. -/
theorem update_cells_matches_conway_rule_witness :
    (∀ q ∈ ({Point.mk 1 1} : Finset Point), inBounds 3 3 q) ∧
    inBounds 3 3 (Point.mk 1 1) ∧
    ((Point.mk 1 1 ∈ (Board.mk 3 3 {Point.mk 1 1}).update_cells.occupied_cells ↔
      (Point.mk 1 1 ∈ (Board.mk 3 3 {Point.mk 1 1}).occupied_cells ∧
        (refCount (Board.mk 3 3 {Point.mk 1 1}) (Point.mk 1 1) = 2 ∨
          refCount (Board.mk 3 3 {Point.mk 1 1}) (Point.mk 1 1) = 3)) ∨
        (Point.mk 1 1 ∉ (Board.mk 3 3 {Point.mk 1 1}).occupied_cells ∧
          refCount (Board.mk 3 3 {Point.mk 1 1}) (Point.mk 1 1) = 3)) ∧
    (Board.mk 3 3 {Point.mk 1 1}).update_cells.occupied_cells =
      conwayNext (Board.mk 3 3 {Point.mk 1 1})) :=
  ⟨by decide, by decide,
    update_cells_matches_conway_rule (Board.mk 3 3 {Point.mk 1 1})
      (by norm_num) (by norm_num) (by norm_num) (by norm_num) (by decide)
      (Point.mk 1 1) (by decide)⟩

/-! ## Renderer -/

/-- One empty row built by `board_to_string`: a `'║'` border character,
`width` blanks, the closing border, then `'\r'` and `'\n'`. -/
def emptyRow (w : Nat) : List Char :=
  '║' :: (List.replicate w ' ' ++ ['║', '\r', '\n'])

/-- The empty board string: `height` copies of the empty row. -/
def emptyBoardString (b : Board) : List (List Char) :=
  List.replicate b.height (emptyRow b.width)

/-- One iteration of the fill loop of `board_to_string`:
`board_string[point.y as usize][point.x as usize + 1] = cell_char` (the
`x + 1` skips the leading border character). -/
def setCell (rows : List (List Char)) (p : Point) (cell_char : Char) :
    List (List Char) :=
  rows.set p.y.toNat ((rows.getD p.y.toNat []).set (p.x.toNat + 1) cell_char)

/-- A linear order on points (lexicographic), used only to pick a concrete
iteration order for the hash set below. -/
instance : LinearOrder Point :=
  LinearOrder.lift' (fun p => toLex (p.x, p.y)) (fun p q h => by
    cases p; cases q
    simpa [Prod.ext_iff] using congrArg ofLex h)

/-- The row buffer built by `board_to_string`, filling the occupied cells in
the (unspecified) iteration order of the hash set — realized here by one
concrete enumeration; the characterization theorem pins down every cell
position, so the result does not depend on the order chosen. -/
def boardStringRows (board : Board) (cell_char : Char) : List (List Char) :=
  (board.occupied_cells.sort (· ≤ ·)).foldl
    (fun rows p => setCell rows p cell_char) (emptyBoardString board)

/-- `board_to_string`: the rows flattened into one string. -/
def board_to_string (board : Board) (cell_char : Char) : String :=
  ⟨(boardStringRows board cell_char).flatten⟩

/-- The character at row `r`, column `cc` of a row buffer, when in range
(`none` when either index is out of range). -/
def charAt (rows : List (List Char)) (r cc : Nat) : Option Char :=
  (rows.getD r [])[cc]?

/-! ## Session state machine -/

def INSTRUCTIONS_WIDTH : Nat := 32

def INSTRUCTIONS_HEIGHT : Nat := 12

def CELL_CHAR_UNICODE : Char := '⬤'

def CELL_CHAR_ASCII : Char := '#'

def MIN_FRAME_DELAY : Int := 1

def MAX_FRAME_DELAY : Int := 100

/-- `termion::event::Key`, restricted to the shapes `handle_key_press`
matches on; every other key variant takes the wildcard arm, like `other`. -/
inductive Key where
  | char (c : Char)
  | left
  | right
  | up
  | down
  | other
deriving DecidableEq

/-- `struct GameState`; `frame_delay` is `i16`. -/
structure GameState where
  paused : Bool
  game_running : Bool
  cursor_position : Point
  cursor_visible : Bool
  cell_char : Char
  frame_delay : Int
  is_first_frame : Bool
deriving DecidableEq

/-- `struct FrameState`: per-frame flags, reset to `false` every frame. -/
structure FrameState where
  board_updated : Bool
  frame_delay_updated : Bool
deriving DecidableEq

/-- `handle_key_press`: dispatch one key event, mutating board, game state
and frame state; returned as a triple.  `draws` feeds `init_randomly`.  The
source's `match` over `Key::Char` literals is rendered as the equivalent
chain of character tests, in source arm order (the arrow-key arms match
distinct `Key` constructors, so their relative position is immaterial). -/
def handle_key_press (key : Key) (board : Board) (game_state : GameState)
    (frame_state : FrameState) (draws : Nat → Nat × Nat) :
    Board × GameState × FrameState :=
  match key with
  | .char c =>
      if c = 'q' ∨ c = 'Q' then
        (board, { game_state with game_running := false }, frame_state)
      else if c = ' ' then
        (board, { game_state with paused := !game_state.paused }, frame_state)
      else if c = 'r' ∨ c = 'R' then
        (board.init_randomly draws, game_state,
          { frame_state with board_updated := true })
      else if c = 'c' ∨ c = 'C' then
        ({ board with occupied_cells := ∅ }, game_state,
          { frame_state with board_updated := true })
      else if c = 'f' ∨ c = 'F' then
        if game_state.paused then
          (board.update_cells, game_state,
            { frame_state with board_updated := true })
        else (board, game_state, frame_state)
      else if c = 'h' ∨ c = 'H' then
        (board, { game_state with cursor_visible := !game_state.cursor_visible },
          frame_state)
      else if c = 'a' ∨ c = 'A' then
        let occ := if game_state.cursor_position ∈ board.occupied_cells then
            board.occupied_cells.erase game_state.cursor_position
          else insert game_state.cursor_position board.occupied_cells
        ({ board with occupied_cells := occ }, game_state,
          { frame_state with board_updated := true })
      else if c = 'u' ∨ c = 'U' then
        let ch := if game_state.cell_char = CELL_CHAR_UNICODE then CELL_CHAR_ASCII
          else CELL_CHAR_UNICODE
        (board, { game_state with cell_char := ch },
          { frame_state with board_updated := true })
      else if c = '-' ∨ c = '_' ∨ c = '=' ∨ c = '+' then
        let d0 := if c = '-' ∨ c = '_' then game_state.frame_delay - 1
          else game_state.frame_delay + 1
        let d1 := if d0 < MIN_FRAME_DELAY then MIN_FRAME_DELAY else d0
        let d2 := if d1 > MAX_FRAME_DELAY then MAX_FRAME_DELAY else d1
        (board, { game_state with frame_delay := d2 },
          { frame_state with frame_delay_updated := true })
      else (board, game_state, frame_state)
  | .right =>
      let cp := game_state.cursor_position
      (board, { game_state with cursor_position := Point.mk (cp.x + 1) cp.y },
        frame_state)
  | .down =>
      let cp := game_state.cursor_position
      (board, { game_state with cursor_position := Point.mk cp.x (cp.y + 1) },
        frame_state)
  | .left =>
      let cp := game_state.cursor_position
      (board, { game_state with cursor_position := Point.mk (cp.x - 1) cp.y },
        frame_state)
  | .up =>
      let cp := game_state.cursor_position
      (board, { game_state with cursor_position := Point.mk cp.x (cp.y - 1) },
        frame_state)
  | .other => (board, game_state, frame_state)

/-- One iteration of the `play_game` loop: reset the frame flags, advance
the generation when not paused, handle at most one key event, then clamp the
cursor into `[0, width as i16 - 1] × [0, height as i16 - 1]` and clear
`is_first_frame`.  The writes to the terminal carry no state. -/
def tick (board : Board) (game_state : GameState) (key : Option Key)
    (draws : Nat → Nat × Nat) : Board × GameState × FrameState :=
  let frame_state : FrameState :=
    { board_updated := false, frame_delay_updated := false }
  let s1 : Board × FrameState :=
    if game_state.paused then (board, frame_state)
    else (board.update_cells, { frame_state with board_updated := true })
  let s2 : Board × GameState × FrameState :=
    match key with
    | some k => handle_key_press k s1.1 game_state s1.2 draws
    | none => (s1.1, game_state, s1.2)
  let bounded := s2.2.1.cursor_position.bound 0 0
    (i16ofU32 s2.1.width - 1) (i16ofU32 s2.1.height - 1)
  (s2.1,
    { s2.2.1 with cursor_position := bounded, is_first_frame := false },
    s2.2.2)

/-! ## Startup sizing -/

/-- Wrapping `u16` subtraction (release-mode semantics). -/
def u16sub (a b : Nat) : Nat := (a % 65536 + 65536 - b % 65536) % 65536

/-- `default_board_dimensions`: from the reported `u16` terminal size,
either abort (`none`; the source prints "your terminal is too small to
play :(" and calls `process::exit(1)` before the control loop starts) or
return `(max_board_width, max_board_height)`. -/
def default_board_dimensions (terminal_width terminal_height : Nat) :
    Option (Nat × Nat) :=
  let min_board_height := 1
  let min_board_width := INSTRUCTIONS_WIDTH - 2
  let max_board_width := u16sub terminal_width 2
  let max_board_height := u16sub (u16sub terminal_height INSTRUCTIONS_HEIGHT) 2
  if max_board_height < min_board_height ∨ max_board_width < min_board_width then
    none
  else
    some (max_board_width, max_board_height)

/-- C2, counterexample: `update_cells` on a board that violates the bounds
invariant can insert a coordinate that is out of bounds — three occupied
cells in column `x = -5` give the dead cell `(-6, 2)` three neighbours, so
it is born outside `[0, 10) × [0, 10)`. -/
theorem update_cells_escapes_counterexample :
    Point.mk (-6) 2 ∈
      (Board.mk 10 10
        {Point.mk (-5) 1, Point.mk (-5) 2, Point.mk (-5) 3}).update_cells.occupied_cells ∧
    ¬inBounds 10 10 (Point.mk (-6) 2) := by decide

/-! ## Randomization claims -/

lemma init_randomly_occupied (b : Board) (draws : Nat → Nat × Nat)
    (hmul : b.width * b.height < 4294967296) :
    (b.init_randomly draws).occupied_cells =
      (Finset.range (b.width * b.height / 4)).image
        (fun i => Point.mk (((draws i).1 % b.width : Nat) : Int)
          (((draws i).2 % b.height : Nat) : Int)) := by
  unfold Board.init_randomly
  rw [Nat.mod_eq_of_lt hmul]

lemma init_randomly_mem_inBounds (b : Board) (draws : Nat → Nat × Nat)
    (hw1 : 1 ≤ b.width) (hh1 : 1 ≤ b.height) :
    ∀ q ∈ (b.init_randomly draws).occupied_cells, inBounds b.width b.height q := by
  intro q hq
  unfold Board.init_randomly at hq
  simp only [Finset.mem_image, Finset.mem_range] at hq
  obtain ⟨i, -, rfl⟩ := hq
  have h1 : (draws i).1 % b.width < b.width := Nat.mod_lt _ (by omega)
  have h2 : (draws i).2 % b.height < b.height := Nat.mod_lt _ (by omega)
  unfold inBounds
  refine ⟨by positivity, ?_, by positivity, ?_⟩
  · show (((draws i).1 % b.width : Nat) : Int) < (b.width : Int)
    exact_mod_cast h1
  · show (((draws i).2 % b.height : Nat) : Int) < (b.height : Int)
    exact_mod_cast h2

/-- C3: for positive dimensions representable in `i16`, `init_randomly`
produces only in-bounds cells, at most `⌊width * height / 4⌋` of them (the
number of trials), and the result consists exactly of the freshly drawn
coordinates — the previous occupied set is discarded entirely. -/
theorem init_randomly_bounds_and_card (b : Board) (draws : Nat → Nat × Nat)
    (hw1 : 1 ≤ b.width) (hw2 : b.width ≤ 32767)
    (hh1 : 1 ≤ b.height) (hh2 : b.height ≤ 32767)
    (q : Point) (hq : q ∈ (b.init_randomly draws).occupied_cells) :
    inBounds b.width b.height q ∧
    (b.init_randomly draws).occupied_cells.card ≤ b.width * b.height / 4 ∧
    (b.init_randomly draws).occupied_cells =
      (Finset.range (b.width * b.height / 4)).image
        (fun i => Point.mk (((draws i).1 % b.width : Nat) : Int)
          (((draws i).2 % b.height : Nat) : Int)) := by
  have hmul : b.width * b.height < 4294967296 :=
    Nat.lt_of_le_of_lt (Nat.mul_le_mul hw2 hh2) (by norm_num)
  refine ⟨init_randomly_mem_inBounds b draws hw1 hh1 q hq, ?_,
    init_randomly_occupied b draws hmul⟩
  rw [init_randomly_occupied b draws hmul]
  exact Finset.card_image_le.trans (by rw [Finset.card_range])

/-- Witness for C3 at a concrete board, draw stream and drawn point. -/
theorem init_randomly_bounds_and_card_witness :
    (1 ≤ 4 ∧ (4 : Nat) ≤ 32767) ∧
    Point.mk 1 2 ∈ ((Board.mk 4 4 {Point.mk 0 0}).init_randomly
      (fun i => (i, i + 1))).occupied_cells ∧
    (inBounds 4 4 (Point.mk 1 2) ∧
      ((Board.mk 4 4 {Point.mk 0 0}).init_randomly
        (fun i => (i, i + 1))).occupied_cells.card ≤ 4 * 4 / 4 ∧
      ((Board.mk 4 4 {Point.mk 0 0}).init_randomly
        (fun i => (i, i + 1))).occupied_cells =
        (Finset.range (4 * 4 / 4)).image
          (fun i => Point.mk ((i % 4 : Nat) : Int) (((i + 1) % 4 : Nat) : Int))) :=
  ⟨⟨by norm_num, by norm_num⟩, by decide,
    init_randomly_bounds_and_card (Board.mk 4 4 {Point.mk 0 0})
      (fun i => (i, i + 1)) (by norm_num) (by norm_num) (by norm_num) (by norm_num)
      (Point.mk 1 2) (by decide)⟩

/-- C7, counterexample: width `32768` is positive but not representable in
`i16` (`32768 as i16 = -32768`), so with height `1` the routine runs `8192`
trials and the very first `gen_range(0..width as i16)` call panics; the
checked model returns `none` rather than succeeding. -/
theorem init_randomly_panic_counterexample :
    (Board.mk 32768 1 ∅).init_randomly_checked (fun i => (i, i)) = none := by
  decide

/-- C7, amended: for every board whose positive width and height are
representable in `i16`, `init_randomly` is panic-free — the trial-count
product, the casts and every draw are well-defined — and it terminates
having replaced the occupied set with the freshly drawn one. -/
theorem init_randomly_total (b : Board) (draws : Nat → Nat × Nat)
    (hw1 : 1 ≤ b.width) (hw2 : b.width ≤ 32767)
    (hh1 : 1 ≤ b.height) (hh2 : b.height ≤ 32767) :
    b.init_randomly_checked draws = some (b.init_randomly draws) := by
  unfold Board.init_randomly_checked
  rw [if_neg]
  rintro ⟨-, hcast | hcast⟩
  · rw [i16ofU32_eq_of_le b.width hw2] at hcast; omega
  · rw [i16ofU32_eq_of_le b.height hh2] at hcast; omega

/-- Witness for C7's amended theorem at a concrete board. -/
theorem init_randomly_total_witness :
    (1 ≤ 3 ∧ (3 : Nat) ≤ 32767) ∧
    (Board.mk 3 2 ∅).init_randomly_checked (fun i => (i, i)) =
      some ((Board.mk 3 2 ∅).init_randomly (fun i => (i, i))) :=
  ⟨⟨by norm_num, by norm_num⟩,
    init_randomly_total (Board.mk 3 2 ∅) (fun i => (i, i))
      (by norm_num) (by norm_num) (by norm_num) (by norm_num)⟩

/-! ## Startup sizing claims -/

/-- C6, counterexample: a 1-column terminal cannot fit the minimum board
plus decoration (it offers fewer than `INSTRUCTIONS_WIDTH` columns), yet
`default_board_dimensions` does not exit: the `u16` subtraction wraps and it
returns huge dimensions instead of `none`. -/
theorem default_board_dimensions_no_exit_counterexample :
    1 < INSTRUCTIONS_WIDTH - 2 + 2 ∧
    default_board_dimensions 1 50 = some (65535, 36) := by
  decide

/-- C6, amended: `default_board_dimensions` aborts (returns `none`, i.e.
prints a message and exits with status 1 before the control loop) exactly
when the wrapped quantities `terminal_height - INSTRUCTIONS_HEIGHT - 2` and
`terminal_width - 2` (u16 arithmetic, modulo `2 ^ 16`) fall below the
minimum board dimensions; when neither subtraction underflows
(`terminal_width ≥ 2`, `terminal_height ≥ 14`) this is exactly "the
available area cannot fit the minimum board plus decoration" and otherwise
the true differences are returned — but for smaller terminals the
subtractions wrap and the program fails to abort. -/
theorem default_board_dimensions_spec (tw th : Nat)
    (htw : tw < 65536) (hth : th < 65536) :
    (default_board_dimensions tw th = none ↔
      (u16sub (u16sub th INSTRUCTIONS_HEIGHT) 2 < 1 ∨
        u16sub tw 2 < INSTRUCTIONS_WIDTH - 2)) ∧
    (2 ≤ tw → 14 ≤ th →
      ((default_board_dimensions tw th = none ↔ (th - 14 < 1 ∨ tw - 2 < 30)) ∧
        (30 ≤ tw - 2 → 1 ≤ th - 14 →
          default_board_dimensions tw th = some (tw - 2, th - 14)))) := by
  constructor
  · simp only [default_board_dimensions]
    split
    next hc => exact iff_of_true rfl hc
    next hc => exact iff_of_false (by simp) hc
  · intro h2 h14
    have hA : u16sub tw 2 = tw - 2 := by unfold u16sub; omega
    have hB : u16sub (u16sub th INSTRUCTIONS_HEIGHT) 2 = th - 14 := by
      unfold u16sub INSTRUCTIONS_HEIGHT; omega
    constructor
    · simp only [default_board_dimensions]
      rw [hA, hB]
      split
      next hc =>
        exact iff_of_true rfl (by revert hc; unfold INSTRUCTIONS_WIDTH; omega)
      next hc =>
        exact iff_of_false (by simp) (by revert hc; unfold INSTRUCTIONS_WIDTH; omega)
    · intro hge30 hge1
      simp only [default_board_dimensions]
      rw [hA, hB, if_neg (by unfold INSTRUCTIONS_WIDTH; omega)]

/-- Witness for C6's amended theorem at a concrete terminal size. -/
theorem default_board_dimensions_spec_witness :
    ((80 : Nat) < 65536 ∧ (40 : Nat) < 65536) ∧
    ((default_board_dimensions 80 40 = none ↔
        (u16sub (u16sub 40 INSTRUCTIONS_HEIGHT) 2 < 1 ∨
          u16sub 80 2 < INSTRUCTIONS_WIDTH - 2)) ∧
      (2 ≤ 80 → 14 ≤ 40 →
        ((default_board_dimensions 80 40 = none ↔
            ((40 : Nat) - 14 < 1 ∨ (80 : Nat) - 2 < 30)) ∧
          (30 ≤ (80 : Nat) - 2 → 1 ≤ (40 : Nat) - 14 →
            default_board_dimensions 80 40 = some (78, 26))))) :=
  ⟨⟨by norm_num, by norm_num⟩,
    default_board_dimensions_spec 80 40 (by norm_num) (by norm_num)⟩

/-! ## Frame-delay claims -/

/-- Folding a list of key events through `handle_key_press`. -/
def applyKeys (ks : List Key) (s : Board × GameState × FrameState)
    (draws : Nat → Nat × Nat) : Board × GameState × FrameState :=
  ks.foldl (fun s k => handle_key_press k s.1 s.2.1 s.2.2 draws) s

/-- The four delay-adjustment keys of the source's dispatch. -/
def isDelayKey (k : Key) : Prop :=
  k = Key.char '-' ∨ k = Key.char '_' ∨ k = Key.char '=' ∨ k = Key.char '+'

instance (k : Key) : Decidable (isDelayKey k) := by
  unfold isDelayKey; exact inferInstance

lemma handle_delay_key (k : Key) (hk : isDelayKey k) (b : Board)
    (gs : GameState) (fs : FrameState) (draws : Nat → Nat × Nat) :
    (handle_key_press k b gs fs draws).2.1.frame_delay =
      min MAX_FRAME_DELAY (max MIN_FRAME_DELAY (gs.frame_delay +
        (if k = Key.char '-' ∨ k = Key.char '_' then (-1 : Int) else 1))) ∧
    (handle_key_press k b gs fs draws).2.2.frame_delay_updated = true := by
  rcases hk with rfl | rfl | rfl | rfl <;>
    refine ⟨?_, by simp [handle_key_press]⟩ <;>
    simp [handle_key_press, MIN_FRAME_DELAY, MAX_FRAME_DELAY] <;>
    split_ifs <;> omega

lemma delay_clamp_range (d : Int) :
    MIN_FRAME_DELAY ≤ min MAX_FRAME_DELAY (max MIN_FRAME_DELAY d) ∧
      min MAX_FRAME_DELAY (max MIN_FRAME_DELAY d) ≤ MAX_FRAME_DELAY := by
  unfold MIN_FRAME_DELAY MAX_FRAME_DELAY; omega

lemma applyKeys_delay_bounded (ks : List Key) (draws : Nat → Nat × Nat) :
    ∀ s : Board × GameState × FrameState, (∀ k ∈ ks, isDelayKey k) →
      MIN_FRAME_DELAY ≤ s.2.1.frame_delay → s.2.1.frame_delay ≤ MAX_FRAME_DELAY →
      MIN_FRAME_DELAY ≤ (applyKeys ks s draws).2.1.frame_delay ∧
        (applyKeys ks s draws).2.1.frame_delay ≤ MAX_FRAME_DELAY := by
  induction ks with
  | nil => exact fun s _ h1 h2 => ⟨h1, h2⟩
  | cons k ks ih =>
    intro s hks h1 h2
    have hk := hks k (List.mem_cons_self k ks)
    have hstep := handle_delay_key k hk s.1 s.2.1 s.2.2 draws
    have hrange := delay_clamp_range (s.2.1.frame_delay +
      (if k = Key.char '-' ∨ k = Key.char '_' then (-1 : Int) else 1))
    have heq : applyKeys (k :: ks) s draws =
        applyKeys ks (handle_key_press k s.1 s.2.1 s.2.2 draws) draws := rfl
    rw [heq]
    exact ih _ (fun k' hk' => hks k' (List.mem_cons_of_mem _ hk'))
      (by rw [hstep.1]; exact hrange.1) (by rw [hstep.1]; exact hrange.2)

/-- C8: starting from a frame delay within `[MIN_FRAME_DELAY,
MAX_FRAME_DELAY]`, any sequence of increase- and decrease-delay events keeps the
delay within that range; each single event adds or subtracts exactly 1, then
clamps to the range, and sets the delay-changed flag. -/
theorem frame_delay_bounded (ks : List Key) (b : Board) (gs : GameState)
    (fs : FrameState) (draws : Nat → Nat × Nat)
    (hks : ∀ k ∈ ks, isDelayKey k)
    (hd1 : MIN_FRAME_DELAY ≤ gs.frame_delay)
    (hd2 : gs.frame_delay ≤ MAX_FRAME_DELAY)
    (k : Key) (hk : isDelayKey k)
    (b' : Board) (gs' : GameState) (fs' : FrameState) :
    (MIN_FRAME_DELAY ≤ (applyKeys ks (b, gs, fs) draws).2.1.frame_delay ∧
      (applyKeys ks (b, gs, fs) draws).2.1.frame_delay ≤ MAX_FRAME_DELAY) ∧
    (handle_key_press k b' gs' fs' draws).2.1.frame_delay =
      min MAX_FRAME_DELAY (max MIN_FRAME_DELAY (gs'.frame_delay +
        (if k = Key.char '-' ∨ k = Key.char '_' then (-1 : Int) else 1))) ∧
    (handle_key_press k b' gs' fs' draws).2.2.frame_delay_updated = true :=
  ⟨applyKeys_delay_bounded ks draws (b, gs, fs) hks hd1 hd2,
    handle_delay_key k hk b' gs' fs' draws⟩

/-- Witness for C8 at a concrete event sequence, state and single event. -/
theorem frame_delay_bounded_witness :
    (∀ k ∈ [Key.char '-', Key.char '+', Key.char '-'], isDelayKey k) ∧
    (MIN_FRAME_DELAY ≤ (30 : Int) ∧ (30 : Int) ≤ MAX_FRAME_DELAY) ∧
    isDelayKey (Key.char '=') ∧
    ((MIN_FRAME_DELAY ≤ (applyKeys [Key.char '-', Key.char '+', Key.char '-']
        (Board.mk 4 4 ∅,
          GameState.mk false true (Point.mk 0 0) true '#' 30 true,
          FrameState.mk false false) (fun i => (i, i))).2.1.frame_delay ∧
      (applyKeys [Key.char '-', Key.char '+', Key.char '-']
        (Board.mk 4 4 ∅,
          GameState.mk false true (Point.mk 0 0) true '#' 30 true,
          FrameState.mk false false) (fun i => (i, i))).2.1.frame_delay ≤
        MAX_FRAME_DELAY) ∧
    (handle_key_press (Key.char '=') (Board.mk 4 4 ∅)
        (GameState.mk false true (Point.mk 0 0) true '#' 30 true)
        (FrameState.mk false false) (fun i => (i, i))).2.1.frame_delay =
      min MAX_FRAME_DELAY (max MIN_FRAME_DELAY ((30 : Int) +
        (if Key.char '=' = Key.char '-' ∨ Key.char '=' = Key.char '_'
          then (-1 : Int) else 1))) ∧
    (handle_key_press (Key.char '=') (Board.mk 4 4 ∅)
        (GameState.mk false true (Point.mk 0 0) true '#' 30 true)
        (FrameState.mk false false) (fun i => (i, i))).2.2.frame_delay_updated =
      true) :=
  ⟨by decide, ⟨by decide, by decide⟩, by decide,
    frame_delay_bounded [Key.char '-', Key.char '+', Key.char '-']
      (Board.mk 4 4 ∅) (GameState.mk false true (Point.mk 0 0) true '#' 30 true)
      (FrameState.mk false false) (fun i => (i, i)) (by decide) (by decide)
      (by decide) (Key.char '=') (by decide) (Board.mk 4 4 ∅)
      (GameState.mk false true (Point.mk 0 0) true '#' 30 true)
      (FrameState.mk false false)⟩

/-! ## Toggle-cell claim -/

/-- C10: the toggle-cell key ('a' or 'A') flips exactly the cursor
coordinate's membership in the occupied set and sets the board-updated flag;
the dimensions, every other coordinate's membership, the whole game state
and the delay flag are unchanged, and a second toggle restores the original
board exactly. -/
theorem toggle_cell_effect (k : Key)
    (hk : k = Key.char 'a' ∨ k = Key.char 'A')
    (b : Board) (gs : GameState) (fs : FrameState) (draws : Nat → Nat × Nat)
    (p : Point) (hp : p ≠ gs.cursor_position) :
    (handle_key_press k b gs fs draws).1.width = b.width ∧
    (handle_key_press k b gs fs draws).1.height = b.height ∧
    (gs.cursor_position ∈ (handle_key_press k b gs fs draws).1.occupied_cells ↔
      gs.cursor_position ∉ b.occupied_cells) ∧
    (p ∈ (handle_key_press k b gs fs draws).1.occupied_cells ↔
      p ∈ b.occupied_cells) ∧
    (handle_key_press k b gs fs draws).2.1 = gs ∧
    (handle_key_press k b gs fs draws).2.2.board_updated = true ∧
    (handle_key_press k b gs fs draws).2.2.frame_delay_updated =
      fs.frame_delay_updated ∧
    (handle_key_press k (handle_key_press k b gs fs draws).1
      (handle_key_press k b gs fs draws).2.1
      (handle_key_press k b gs fs draws).2.2 draws).1 = b := by
  rcases hk with rfl | rfl <;>
    simp only [handle_key_press] <;>
    by_cases hc : gs.cursor_position ∈ b.occupied_cells <;>
      simp [hc, Finset.mem_erase, Finset.mem_insert, hp, Finset.insert_erase,
        Finset.erase_insert, Finset.not_mem_erase]

/-- Witness for C10 at a concrete state. -/
theorem toggle_cell_effect_witness :
    ((Key.char 'a') = Key.char 'a' ∨ (Key.char 'a') = Key.char 'A') ∧
    Point.mk 2 2 ≠ (Point.mk 1 1) ∧
    ((handle_key_press (Key.char 'a') (Board.mk 4 4 {Point.mk 2 2})
        (GameState.mk true true (Point.mk 1 1) true '#' 30 false)
        (FrameState.mk false false) (fun i => (i, i))).1.width = 4 ∧
      (handle_key_press (Key.char 'a') (Board.mk 4 4 {Point.mk 2 2})
        (GameState.mk true true (Point.mk 1 1) true '#' 30 false)
        (FrameState.mk false false) (fun i => (i, i))).1.height = 4 ∧
      (Point.mk 1 1 ∈ (handle_key_press (Key.char 'a')
          (Board.mk 4 4 {Point.mk 2 2})
          (GameState.mk true true (Point.mk 1 1) true '#' 30 false)
          (FrameState.mk false false) (fun i => (i, i))).1.occupied_cells ↔
        Point.mk 1 1 ∉ (Board.mk 4 4 {Point.mk 2 2}).occupied_cells) ∧
      (Point.mk 2 2 ∈ (handle_key_press (Key.char 'a')
          (Board.mk 4 4 {Point.mk 2 2})
          (GameState.mk true true (Point.mk 1 1) true '#' 30 false)
          (FrameState.mk false false) (fun i => (i, i))).1.occupied_cells ↔
        Point.mk 2 2 ∈ (Board.mk 4 4 {Point.mk 2 2}).occupied_cells) ∧
      (handle_key_press (Key.char 'a') (Board.mk 4 4 {Point.mk 2 2})
        (GameState.mk true true (Point.mk 1 1) true '#' 30 false)
        (FrameState.mk false false) (fun i => (i, i))).2.1 =
        GameState.mk true true (Point.mk 1 1) true '#' 30 false ∧
      (handle_key_press (Key.char 'a') (Board.mk 4 4 {Point.mk 2 2})
        (GameState.mk true true (Point.mk 1 1) true '#' 30 false)
        (FrameState.mk false false) (fun i => (i, i))).2.2.board_updated = true ∧
      (handle_key_press (Key.char 'a') (Board.mk 4 4 {Point.mk 2 2})
        (GameState.mk true true (Point.mk 1 1) true '#' 30 false)
        (FrameState.mk false false) (fun i => (i, i))).2.2.frame_delay_updated =
        (FrameState.mk false false).frame_delay_updated ∧
      (handle_key_press (Key.char 'a')
        (handle_key_press (Key.char 'a') (Board.mk 4 4 {Point.mk 2 2})
          (GameState.mk true true (Point.mk 1 1) true '#' 30 false)
          (FrameState.mk false false) (fun i => (i, i))).1
        (handle_key_press (Key.char 'a') (Board.mk 4 4 {Point.mk 2 2})
          (GameState.mk true true (Point.mk 1 1) true '#' 30 false)
          (FrameState.mk false false) (fun i => (i, i))).2.1
        (handle_key_press (Key.char 'a') (Board.mk 4 4 {Point.mk 2 2})
          (GameState.mk true true (Point.mk 1 1) true '#' 30 false)
          (FrameState.mk false false) (fun i => (i, i))).2.2
        (fun i => (i, i))).1 = Board.mk 4 4 {Point.mk 2 2}) :=
  ⟨Or.inl rfl, by decide,
    toggle_cell_effect (Key.char 'a') (Or.inl rfl) (Board.mk 4 4 {Point.mk 2 2})
      (GameState.mk true true (Point.mk 1 1) true '#' 30 false)
      (FrameState.mk false false) (fun i => (i, i)) (Point.mk 2 2) (by decide)⟩

/-! ## Bounds invariant of the control loop -/

@[simp] lemma update_cells_width (b : Board) : b.update_cells.width = b.width := rfl

@[simp] lemma update_cells_height (b : Board) : b.update_cells.height = b.height := rfl

@[simp] lemma init_randomly_width (b : Board) (draws : Nat → Nat × Nat) :
    (b.init_randomly draws).width = b.width := rfl

@[simp] lemma init_randomly_height (b : Board) (draws : Nat → Nat × Nat) :
    (b.init_randomly draws).height = b.height := rfl

@[simp] lemma inBounds_mk (w h : Nat) (x y : Int) :
    inBounds w h (Point.mk x y) ↔ 0 ≤ x ∧ x < (w : Int) ∧ 0 ≤ y ∧ y < (h : Int) :=
  Iff.rfl

lemma handle_key_press_board_bounds (k : Key) (b : Board) (gs : GameState)
    (fs : FrameState) (draws : Nat → Nat × Nat)
    (hw1 : 1 ≤ b.width) (hw2 : b.width ≤ 32767)
    (hh1 : 1 ≤ b.height) (hh2 : b.height ≤ 32767)
    (hinv : ∀ q ∈ b.occupied_cells, inBounds b.width b.height q)
    (hcur : inBounds b.width b.height gs.cursor_position) :
    (handle_key_press k b gs fs draws).1.width = b.width ∧
    (handle_key_press k b gs fs draws).1.height = b.height ∧
    ∀ q ∈ (handle_key_press k b gs fs draws).1.occupied_cells,
      inBounds b.width b.height q := by
  cases k with
  | char c =>
      by_cases h1 : c = 'q' ∨ c = 'Q'
      · simp only [handle_key_press, if_pos h1]
        refine ⟨by simp, by simp, ?_⟩; exact hinv
      by_cases h2 : c = ' '
      · simp only [handle_key_press, if_neg h1, if_pos h2]
        refine ⟨by simp, by simp, ?_⟩; exact hinv
      by_cases h3 : c = 'r' ∨ c = 'R'
      · simp only [handle_key_press, if_neg h1, if_neg h2, if_pos h3]
        refine ⟨by simp, by simp, ?_⟩
        exact init_randomly_mem_inBounds b draws hw1 hh1
      by_cases h4 : c = 'c' ∨ c = 'C'
      · simp only [handle_key_press, if_neg h1, if_neg h2, if_neg h3, if_pos h4]
        refine ⟨by simp, by simp, ?_⟩
        exact fun q hq => absurd hq (Finset.not_mem_empty q)
      by_cases h5 : c = 'f' ∨ c = 'F'
      · by_cases hp : gs.paused = true
        · simp only [handle_key_press, if_neg h1, if_neg h2, if_neg h3, if_neg h4,
            if_pos h5, if_pos hp]
          refine ⟨by simp, by simp, ?_⟩
          exact update_cells_inBounds hw1 hw2 hh1 hh2 hinv
        · simp only [handle_key_press, if_neg h1, if_neg h2, if_neg h3, if_neg h4,
            if_pos h5, if_neg hp]
          refine ⟨by simp, by simp, ?_⟩; exact hinv
      by_cases h6 : c = 'h' ∨ c = 'H'
      · simp only [handle_key_press, if_neg h1, if_neg h2, if_neg h3, if_neg h4,
          if_neg h5, if_pos h6]
        refine ⟨by simp, by simp, ?_⟩; exact hinv
      by_cases h7 : c = 'a' ∨ c = 'A'
      · by_cases hm : gs.cursor_position ∈ b.occupied_cells
        · simp only [handle_key_press, if_neg h1, if_neg h2, if_neg h3, if_neg h4,
            if_neg h5, if_neg h6, if_pos h7, if_pos hm]
          refine ⟨by simp, by simp, ?_⟩
          exact fun q hq => hinv q (Finset.mem_of_mem_erase hq)
        · simp only [handle_key_press, if_neg h1, if_neg h2, if_neg h3, if_neg h4,
            if_neg h5, if_neg h6, if_pos h7, if_neg hm]
          refine ⟨by simp, by simp, ?_⟩
          exact fun q hq =>
            (Finset.mem_insert.1 hq).elim (fun he => he ▸ hcur) (hinv q)
      by_cases h8 : c = 'u' ∨ c = 'U'
      · simp only [handle_key_press, if_neg h1, if_neg h2, if_neg h3, if_neg h4,
          if_neg h5, if_neg h6, if_neg h7, if_pos h8]
        refine ⟨by simp, by simp, ?_⟩; exact hinv
      by_cases h9 : c = '-' ∨ c = '_' ∨ c = '=' ∨ c = '+'
      · simp only [handle_key_press, if_neg h1, if_neg h2, if_neg h3, if_neg h4,
          if_neg h5, if_neg h6, if_neg h7, if_neg h8, if_pos h9]
        refine ⟨by simp, by simp, ?_⟩; exact hinv
      · simp only [handle_key_press, if_neg h1, if_neg h2, if_neg h3, if_neg h4,
          if_neg h5, if_neg h6, if_neg h7, if_neg h8, if_neg h9]
        refine ⟨by simp, by simp, ?_⟩; exact hinv
  | right => exact ⟨rfl, rfl, hinv⟩
  | down => exact ⟨rfl, rfl, hinv⟩
  | left => exact ⟨rfl, rfl, hinv⟩
  | up => exact ⟨rfl, rfl, hinv⟩
  | other => exact ⟨rfl, rfl, hinv⟩

lemma bound_range (p : Point) (Mx My : Int) (hx : 0 ≤ Mx) (hy : 0 ≤ My) :
    0 ≤ (p.bound 0 0 Mx My).x ∧ (p.bound 0 0 Mx My).x ≤ Mx ∧
    0 ≤ (p.bound 0 0 Mx My).y ∧ (p.bound 0 0 Mx My).y ≤ My := by
  simp only [Point.bound]
  split_ifs <;> omega

lemma bound_eq_clamp (p : Point) (Mx My : Int) (hx : 0 ≤ Mx) (hy : 0 ≤ My) :
    p.bound 0 0 Mx My = Point.mk (min Mx (max 0 p.x)) (min My (max 0 p.y)) := by
  simp only [Point.bound, Point.eq_iff]
  constructor <;> split_ifs <;> omega

lemma bound_inBounds (p : Point) (w h : Nat)
    (hw1 : 1 ≤ w) (hw2 : w ≤ 32767) (hh1 : 1 ≤ h) (hh2 : h ≤ 32767) :
    inBounds w h (p.bound 0 0 (i16ofU32 w - 1) (i16ofU32 h - 1)) := by
  rw [i16ofU32_eq_of_le w hw2, i16ofU32_eq_of_le h hh2]
  have hr := bound_range p ((w : Int) - 1) ((h : Int) - 1) (by omega) (by omega)
  unfold inBounds
  omega

/-- C2, amended: the bounds invariant — every occupied cell lies in
`[0,width) × [0,height)` — is preserved by every operation a control-loop
tick performs on a board of positive `i16`-representable dimensions that
already satisfies it, with the cursor in bounds: `update_cells` inserts no
out-of-bounds coordinate on such boards (on boards violating the invariant
it can, see the counterexample), `init_randomly` and clear produce only
in-bounds members, toggle-cell inserts only the cursor (clamped into
`[0,width-1] × [0,height-1]` at the end of every tick before any subsequent
toggle is handled), and the end-of-tick clamp re-establishes the cursor
bounds. -/
theorem tick_preserves_invariant (b : Board) (gs : GameState)
    (key : Option Key) (draws : Nat → Nat × Nat)
    (hw1 : 1 ≤ b.width) (hw2 : b.width ≤ 32767)
    (hh1 : 1 ≤ b.height) (hh2 : b.height ≤ 32767)
    (hinv : ∀ q ∈ b.occupied_cells, inBounds b.width b.height q)
    (hcur : inBounds b.width b.height gs.cursor_position)
    (q : Point) (hq : q ∈ (tick b gs key draws).1.occupied_cells) :
    (tick b gs key draws).1.width = b.width ∧
    (tick b gs key draws).1.height = b.height ∧
    inBounds b.width b.height q ∧
    inBounds b.width b.height (tick b gs key draws).2.1.cursor_position := by
  rcases key with _ | k
  · cases hpz : gs.paused
    · have hb : (tick b gs none draws).1 = b.update_cells := by simp [tick, hpz]
      have hc : (tick b gs none draws).2.1.cursor_position =
          gs.cursor_position.bound 0 0 (i16ofU32 b.width - 1)
            (i16ofU32 b.height - 1) := by
        simp [tick, hpz]
      rw [hb] at hq
      refine ⟨by rw [hb, update_cells_width], by rw [hb, update_cells_height],
        update_cells_inBounds hw1 hw2 hh1 hh2 hinv q hq, ?_⟩
      rw [hc]
      exact bound_inBounds _ _ _ hw1 hw2 hh1 hh2
    · have hb : (tick b gs none draws).1 = b := by simp [tick, hpz]
      have hc : (tick b gs none draws).2.1.cursor_position =
          gs.cursor_position.bound 0 0 (i16ofU32 b.width - 1)
            (i16ofU32 b.height - 1) := by
        simp [tick, hpz]
      rw [hb] at hq
      refine ⟨by rw [hb], by rw [hb], hinv q hq, ?_⟩
      rw [hc]
      exact bound_inBounds _ _ _ hw1 hw2 hh1 hh2
  · cases hpz : gs.paused
    · have hh := handle_key_press_board_bounds k b.update_cells gs
        (FrameState.mk true false) draws hw1 hw2 hh1 hh2
        (update_cells_inBounds hw1 hw2 hh1 hh2 hinv) hcur
      simp only [update_cells_width, update_cells_height] at hh
      have hb : (tick b gs (some k) draws).1 =
          (handle_key_press k b.update_cells gs (FrameState.mk true false)
            draws).1 := by
        simp [tick, hpz]
      have hc : (tick b gs (some k) draws).2.1.cursor_position =
          ((handle_key_press k b.update_cells gs (FrameState.mk true false)
              draws).2.1.cursor_position).bound 0 0
            (i16ofU32 (handle_key_press k b.update_cells gs
              (FrameState.mk true false) draws).1.width - 1)
            (i16ofU32 (handle_key_press k b.update_cells gs
              (FrameState.mk true false) draws).1.height - 1) := by
        simp [tick, hpz]
      rw [hb] at hq
      refine ⟨by rw [hb]; exact hh.1, by rw [hb]; exact hh.2.1,
        hh.2.2 q hq, ?_⟩
      rw [hc, hh.1, hh.2.1]
      exact bound_inBounds _ _ _ hw1 hw2 hh1 hh2
    · have hh := handle_key_press_board_bounds k b gs
        (FrameState.mk false false) draws hw1 hw2 hh1 hh2 hinv hcur
      have hb : (tick b gs (some k) draws).1 =
          (handle_key_press k b gs (FrameState.mk false false) draws).1 := by
        simp [tick, hpz]
      have hc : (tick b gs (some k) draws).2.1.cursor_position =
          ((handle_key_press k b gs (FrameState.mk false false)
              draws).2.1.cursor_position).bound 0 0
            (i16ofU32 (handle_key_press k b gs
              (FrameState.mk false false) draws).1.width - 1)
            (i16ofU32 (handle_key_press k b gs
              (FrameState.mk false false) draws).1.height - 1) := by
        simp [tick, hpz]
      rw [hb] at hq
      refine ⟨by rw [hb]; exact hh.1, by rw [hb]; exact hh.2.1,
        hh.2.2 q hq, ?_⟩
      rw [hc, hh.1, hh.2.1]
      exact bound_inBounds _ _ _ hw1 hw2 hh1 hh2

/-- Witness for C2's amended theorem at a concrete tick (a toggle-cell event
on an in-bounds board). -/
theorem tick_preserves_invariant_witness :
    (∀ q ∈ ({Point.mk 1 1} : Finset Point), inBounds 3 3 q) ∧
    inBounds 3 3 (Point.mk 2 2) ∧
    Point.mk 2 2 ∈ (tick (Board.mk 3 3 {Point.mk 1 1})
      (GameState.mk true true (Point.mk 2 2) true '#' 30 false)
      (some (Key.char 'a')) (fun i => (i, i))).1.occupied_cells ∧
    ((tick (Board.mk 3 3 {Point.mk 1 1})
      (GameState.mk true true (Point.mk 2 2) true '#' 30 false)
      (some (Key.char 'a')) (fun i => (i, i))).1.width = 3 ∧
    (tick (Board.mk 3 3 {Point.mk 1 1})
      (GameState.mk true true (Point.mk 2 2) true '#' 30 false)
      (some (Key.char 'a')) (fun i => (i, i))).1.height = 3 ∧
    inBounds 3 3 (Point.mk 2 2) ∧
    inBounds 3 3 (tick (Board.mk 3 3 {Point.mk 1 1})
      (GameState.mk true true (Point.mk 2 2) true '#' 30 false)
      (some (Key.char 'a')) (fun i => (i, i))).2.1.cursor_position) :=
  ⟨by decide, by decide, by decide,
    tick_preserves_invariant (Board.mk 3 3 {Point.mk 1 1})
      (GameState.mk true true (Point.mk 2 2) true '#' 30 false)
      (some (Key.char 'a')) (fun i => (i, i))
      (by norm_num) (by norm_num) (by norm_num) (by norm_num)
      (by decide) (by decide) (Point.mk 2 2) (by decide)⟩

/-- C9: from a cursor within `[0,width-1] × [0,height-1]`, a single
arrow-key event in a tick followed by the per-tick clamp leaves the cursor
in that range; a move that would push a component past a boundary leaves it
clamped at that boundary (0, or width-1 / height-1) — never wrapped to the
opposite edge and never rejected — while the other component is unchanged. -/
theorem cursor_move_clamped (b : Board) (gs : GameState) (k : Key)
    (draws : Nat → Nat × Nat)
    (hw1 : 1 ≤ b.width) (hw2 : b.width ≤ 32767)
    (hh1 : 1 ≤ b.height) (hh2 : b.height ≤ 32767)
    (hcur : inBounds b.width b.height gs.cursor_position)
    (hk : k = Key.left ∨ k = Key.right ∨ k = Key.up ∨ k = Key.down) :
    inBounds b.width b.height (tick b gs (some k) draws).2.1.cursor_position ∧
    (k = Key.left → (tick b gs (some k) draws).2.1.cursor_position =
      Point.mk (max 0 (gs.cursor_position.x - 1)) gs.cursor_position.y) ∧
    (k = Key.right → (tick b gs (some k) draws).2.1.cursor_position =
      Point.mk (min ((b.width : Int) - 1) (gs.cursor_position.x + 1))
        gs.cursor_position.y) ∧
    (k = Key.up → (tick b gs (some k) draws).2.1.cursor_position =
      Point.mk gs.cursor_position.x (max 0 (gs.cursor_position.y - 1))) ∧
    (k = Key.down → (tick b gs (some k) draws).2.1.cursor_position =
      Point.mk gs.cursor_position.x
        (min ((b.height : Int) - 1) (gs.cursor_position.y + 1))) := by
  obtain ⟨hx0, hxw, hy0, hyh⟩ := hcur
  rcases hk with rfl | rfl | rfl | rfl
  · cases hpz : gs.paused
    all_goals
      have hc : (tick b gs (some Key.left) draws).2.1.cursor_position =
          (Point.mk (gs.cursor_position.x - 1) gs.cursor_position.y).bound 0 0
            ((b.width : Int) - 1) ((b.height : Int) - 1) := by
        simp [tick, handle_key_press, hpz, i16ofU32_eq_of_le b.width hw2,
          i16ofU32_eq_of_le b.height hh2]
      rw [hc, bound_eq_clamp _ _ _ (by omega) (by omega)]
      refine ⟨by rw [inBounds_mk]; dsimp only; omega, fun _ => ?_,
        fun hkk => absurd hkk (by decide), fun hkk => absurd hkk (by decide),
        fun hkk => absurd hkk (by decide)⟩
      rw [Point.eq_iff]
      dsimp only
      omega
  · cases hpz : gs.paused
    all_goals
      have hc : (tick b gs (some Key.right) draws).2.1.cursor_position =
          (Point.mk (gs.cursor_position.x + 1) gs.cursor_position.y).bound 0 0
            ((b.width : Int) - 1) ((b.height : Int) - 1) := by
        simp [tick, handle_key_press, hpz, i16ofU32_eq_of_le b.width hw2,
          i16ofU32_eq_of_le b.height hh2]
      rw [hc, bound_eq_clamp _ _ _ (by omega) (by omega)]
      refine ⟨by rw [inBounds_mk]; dsimp only; omega,
        fun hkk => absurd hkk (by decide), fun _ => ?_,
        fun hkk => absurd hkk (by decide), fun hkk => absurd hkk (by decide)⟩
      rw [Point.eq_iff]
      dsimp only
      omega
  · cases hpz : gs.paused
    all_goals
      have hc : (tick b gs (some Key.up) draws).2.1.cursor_position =
          (Point.mk gs.cursor_position.x (gs.cursor_position.y - 1)).bound 0 0
            ((b.width : Int) - 1) ((b.height : Int) - 1) := by
        simp [tick, handle_key_press, hpz, i16ofU32_eq_of_le b.width hw2,
          i16ofU32_eq_of_le b.height hh2]
      rw [hc, bound_eq_clamp _ _ _ (by omega) (by omega)]
      refine ⟨by rw [inBounds_mk]; dsimp only; omega,
        fun hkk => absurd hkk (by decide), fun hkk => absurd hkk (by decide),
        fun _ => ?_, fun hkk => absurd hkk (by decide)⟩
      rw [Point.eq_iff]
      dsimp only
      omega
  · cases hpz : gs.paused
    all_goals
      have hc : (tick b gs (some Key.down) draws).2.1.cursor_position =
          (Point.mk gs.cursor_position.x (gs.cursor_position.y + 1)).bound 0 0
            ((b.width : Int) - 1) ((b.height : Int) - 1) := by
        simp [tick, handle_key_press, hpz, i16ofU32_eq_of_le b.width hw2,
          i16ofU32_eq_of_le b.height hh2]
      rw [hc, bound_eq_clamp _ _ _ (by omega) (by omega)]
      refine ⟨by rw [inBounds_mk]; dsimp only; omega,
        fun hkk => absurd hkk (by decide), fun hkk => absurd hkk (by decide),
        fun hkk => absurd hkk (by decide), fun _ => ?_⟩
      rw [Point.eq_iff]
      dsimp only
      omega

/-- Witness for C9 at a concrete boundary move. -/
theorem cursor_move_clamped_witness :
    inBounds 4 4 (Point.mk 0 2) ∧
    (inBounds 4 4 (tick (Board.mk 4 4 ∅)
        (GameState.mk true true (Point.mk 0 2) true '#' 30 false)
        (some Key.left) (fun i => (i, i))).2.1.cursor_position ∧
      (Key.left = Key.left → (tick (Board.mk 4 4 ∅)
        (GameState.mk true true (Point.mk 0 2) true '#' 30 false)
        (some Key.left) (fun i => (i, i))).2.1.cursor_position =
          Point.mk (max 0 ((0 : Int) - 1)) 2) ∧
      (Key.left = Key.right → (tick (Board.mk 4 4 ∅)
        (GameState.mk true true (Point.mk 0 2) true '#' 30 false)
        (some Key.left) (fun i => (i, i))).2.1.cursor_position =
          Point.mk (min ((4 : Int) - 1) ((0 : Int) + 1)) 2) ∧
      (Key.left = Key.up → (tick (Board.mk 4 4 ∅)
        (GameState.mk true true (Point.mk 0 2) true '#' 30 false)
        (some Key.left) (fun i => (i, i))).2.1.cursor_position =
          Point.mk 0 (max 0 ((2 : Int) - 1))) ∧
      (Key.left = Key.down → (tick (Board.mk 4 4 ∅)
        (GameState.mk true true (Point.mk 0 2) true '#' 30 false)
        (some Key.left) (fun i => (i, i))).2.1.cursor_position =
          Point.mk 0 (min ((4 : Int) - 1) ((2 : Int) + 1)))) :=
  ⟨by decide,
    cursor_move_clamped (Board.mk 4 4 ∅)
      (GameState.mk true true (Point.mk 0 2) true '#' 30 false)
      Key.left (fun i => (i, i))
      (by norm_num) (by norm_num) (by norm_num) (by norm_num)
      (by decide) (Or.inl rfl)⟩

/-! ## Renderer claims -/

lemma setCell_length (rows : List (List Char)) (p : Point) (ch : Char) :
    (setCell rows p ch).length = rows.length := by
  simp [setCell]

lemma setCell_row_length (rows : List (List Char)) (p : Point) (ch : Char)
    (W : Nat) (hrow : ∀ row ∈ rows, row.length = W) :
    ∀ row ∈ setCell rows p ch, row.length = W := by
  intro row hm
  by_cases hy : p.y.toNat < rows.length
  · rcases List.mem_or_eq_of_mem_set hm with h | rfl
    · exact hrow row h
    · have hgmem : rows.getD p.y.toNat [] ∈ rows := by
        rw [List.getD_eq_getElem?_getD, List.getElem?_eq_getElem hy]
        exact List.getElem_mem hy
      rw [List.length_set]
      exact hrow _ hgmem
  · unfold setCell at hm
    rw [List.set_eq_of_length_le (by omega)] at hm
    exact hrow row hm

lemma charAt_setCell (rows : List (List Char)) (p : Point) (ch : Char)
    (W : Nat) (hrow : ∀ row ∈ rows, row.length = W)
    (hy : p.y.toNat < rows.length) (hx : p.x.toNat + 1 < W)
    (r cc : Nat) :
    charAt (setCell rows p ch) r cc =
      if p.y.toNat = r ∧ p.x.toNat + 1 = cc then some ch
      else charAt rows r cc := by
  have hgmem : rows.getD p.y.toNat [] ∈ rows := by
    rw [List.getD_eq_getElem?_getD, List.getElem?_eq_getElem hy]
    exact List.getElem_mem hy
  have hglen : (rows.getD p.y.toNat []).length = W := hrow _ hgmem
  by_cases hyr : p.y.toNat = r
  · subst hyr
    unfold charAt setCell
    rw [List.getD_eq_getElem?_getD, List.getElem?_set_self hy, Option.getD_some]
    by_cases hxc : p.x.toNat + 1 = cc
    · subst hxc
      rw [List.getElem?_set_self (by rw [hglen]; exact hx), if_pos ⟨rfl, rfl⟩]
    · rw [List.getElem?_set_ne hxc, if_neg (by simp [hxc]),
        List.getD_eq_getElem?_getD]
  · unfold charAt setCell
    rw [List.getD_eq_getElem?_getD, List.getElem?_set_ne hyr,
      if_neg (by simp [hyr]), List.getD_eq_getElem?_getD]

lemma foldl_setCell_length (ch : Char) (ps : List Point) :
    ∀ rows : List (List Char),
      (ps.foldl (fun rows p => setCell rows p ch) rows).length = rows.length := by
  induction ps with
  | nil => intro rows; rfl
  | cons p ps ih =>
      intro rows
      rw [List.foldl_cons, ih, setCell_length]

lemma foldl_setCell_row_length (ch : Char) (W : Nat) (ps : List Point) :
    ∀ rows : List (List Char), (∀ row ∈ rows, row.length = W) →
      ∀ row ∈ ps.foldl (fun rows p => setCell rows p ch) rows,
        row.length = W := by
  induction ps with
  | nil => intro rows h; exact h
  | cons p ps ih =>
      intro rows h
      rw [List.foldl_cons]
      exact ih _ (setCell_row_length rows p ch W h)

lemma foldl_setCell_charAt (ch : Char) (H W : Nat) (ps : List Point) :
    ∀ rows : List (List Char), rows.length = H →
      (∀ row ∈ rows, row.length = W) →
      (∀ p ∈ ps, p.y.toNat < H ∧ p.x.toNat + 1 < W) →
      ∀ r cc : Nat,
        charAt (ps.foldl (fun rows p => setCell rows p ch) rows) r cc =
          if ∃ p ∈ ps, p.y.toNat = r ∧ p.x.toNat + 1 = cc then some ch
          else charAt rows r cc := by
  induction ps with
  | nil =>
      intro rows _ _ _ r cc
      simp
  | cons p ps ih =>
      intro rows hlen hrow hps r cc
      rw [List.foldl_cons,
        ih (setCell rows p ch) (by rw [setCell_length]; exact hlen)
          (setCell_row_length rows p ch W hrow)
          (fun q hq => hps q (List.mem_cons_of_mem _ hq)) r cc]
      have hpbound := hps p (List.mem_cons_self p ps)
      rw [charAt_setCell rows p ch W hrow (by omega) hpbound.2 r cc]
      by_cases hex : ∃ q ∈ ps, q.y.toNat = r ∧ q.x.toNat + 1 = cc
      · obtain ⟨q, hq, hqq⟩ := hex
        rw [if_pos ⟨q, hq, hqq⟩, if_pos ⟨q, List.mem_cons_of_mem p hq, hqq⟩]
      · rw [if_neg hex]
        by_cases hpc : p.y.toNat = r ∧ p.x.toNat + 1 = cc
        · rw [if_pos hpc, if_pos ⟨p, List.mem_cons_self p ps, hpc⟩]
        · rw [if_neg hpc, if_neg ?_]
          rintro ⟨q, hq, hqq⟩
          rcases List.mem_cons.1 hq with rfl | hq2
          · exact hpc hqq
          · exact hex ⟨q, hq2, hqq⟩

lemma emptyRow_cell (w x : Nat) (hx : x < w) :
    (emptyRow w)[x + 1]? = some ' ' := by
  unfold emptyRow
  rw [List.getElem?_cons_succ, List.getElem?_append_left (by simp [hx]),
    List.getElem?_replicate_of_lt hx]

lemma emptyBoardString_charAt (b : Board) (y x : Nat) (hy : y < b.height)
    (hx : x < b.width) :
    charAt (emptyBoardString b) y (x + 1) = some ' ' := by
  unfold charAt emptyBoardString
  rw [List.getD_eq_getElem?_getD, List.getElem?_replicate_of_lt hy,
    Option.getD_some]
  exact emptyRow_cell b.width x hx

/-- C5: `board_to_string` is a pure function of occupied set, dimensions and
glyph: the row buffer has exactly `height` rows, each of length `width + 4`
(leading border, `width` cells, closing border, CR, LF); in row `y` the
character at position `x + 1` (after the leading border) is the glyph
exactly when `(x, y)` is occupied, and a blank space otherwise — in
particular every index the fill loop uses is in range, and the final string
is the concatenation of the rows. -/
theorem board_to_string_spec (b : Board) (ch : Char)
    (hinv : ∀ q ∈ b.occupied_cells, inBounds b.width b.height q)
    (x y : Nat) (hx : x < b.width) (hy : y < b.height) :
    (boardStringRows b ch).length = b.height ∧
    (∀ row ∈ boardStringRows b ch, row.length = b.width + 4) ∧
    charAt (boardStringRows b ch) y (x + 1) =
      some (if Point.mk (x : Int) (y : Int) ∈ b.occupied_cells then ch
        else ' ') ∧
    (board_to_string b ch).data = (boardStringRows b ch).flatten := by
  have hlen : (emptyBoardString b).length = b.height := by
    simp [emptyBoardString]
  have hrowlen : ∀ row ∈ emptyBoardString b, row.length = b.width + 4 := by
    intro row hm
    rw [List.eq_of_mem_replicate hm]
    simp [emptyRow]
  have hps : ∀ p ∈ b.occupied_cells.sort (· ≤ ·),
      p.y.toNat < b.height ∧ p.x.toNat + 1 < b.width + 4 := by
    intro p hp
    obtain ⟨h1, h2, h3, h4⟩ := hinv p ((Finset.mem_sort _).1 hp)
    omega
  refine ⟨?_, ?_, ?_, rfl⟩
  · unfold boardStringRows
    rw [foldl_setCell_length, hlen]
  · unfold boardStringRows
    exact foldl_setCell_row_length ch (b.width + 4) _ _ hrowlen
  · unfold boardStringRows
    rw [foldl_setCell_charAt ch b.height (b.width + 4) _ _ hlen hrowlen hps
      y (x + 1)]
    by_cases hmem : Point.mk (x : Int) (y : Int) ∈ b.occupied_cells
    · have hex : ∃ p ∈ b.occupied_cells.sort (· ≤ ·),
          p.y.toNat = y ∧ p.x.toNat + 1 = x + 1 :=
        ⟨Point.mk (x : Int) (y : Int), (Finset.mem_sort _).2 hmem, by simp⟩
      rw [if_pos hex, if_pos hmem]
    · have hex : ¬∃ p ∈ b.occupied_cells.sort (· ≤ ·),
          p.y.toNat = y ∧ p.x.toNat + 1 = x + 1 := by
        rintro ⟨p, hp, hpy, hpx⟩
        have hpo := (Finset.mem_sort _).1 hp
        obtain ⟨h1, h2, h3, h4⟩ := hinv p hpo
        have hpe : p = Point.mk (x : Int) (y : Int) := by
          rw [Point.eq_iff]
          constructor <;> simp <;> omega
        exact hmem (hpe ▸ hpo)
      rw [if_neg hex, if_neg hmem]
      exact emptyBoardString_charAt b y x hy hx

/-- Witness for C5 at a concrete board, glyph and cell position. -/
theorem board_to_string_spec_witness :
    (∀ q ∈ ({Point.mk 0 1} : Finset Point), inBounds 2 2 q) ∧
    ((boardStringRows (Board.mk 2 2 {Point.mk 0 1}) '#').length = 2 ∧
      (∀ row ∈ boardStringRows (Board.mk 2 2 {Point.mk 0 1}) '#',
        row.length = 2 + 4) ∧
      charAt (boardStringRows (Board.mk 2 2 {Point.mk 0 1}) '#') 1 (0 + 1) =
        some (if Point.mk ((0 : Nat) : Int) ((1 : Nat) : Int) ∈
          (Board.mk 2 2 {Point.mk 0 1}).occupied_cells then '#' else ' ') ∧
      (board_to_string (Board.mk 2 2 {Point.mk 0 1}) '#').data =
        (boardStringRows (Board.mk 2 2 {Point.mk 0 1}) '#').flatten) :=
  ⟨by decide,
    board_to_string_spec (Board.mk 2 2 {Point.mk 0 1}) '#' (by decide)
      0 1 (by norm_num) (by norm_num)⟩

/-! ## Blinker claims -/

lemma card_filter_triple (A B C : Point) (hAB : A ≠ B) (hAC : A ≠ C)
    (hBC : B ≠ C) (q : Point → Prop) [DecidablePred q] :
    (({A, B, C} : Finset Point).filter q).card =
      (if q A then 1 else 0) + (if q B then 1 else 0) +
        (if q C then 1 else 0) := by
  rw [Finset.filter_insert, Finset.filter_insert, Finset.filter_singleton]
  by_cases hA : q A <;> by_cases hB : q B <;> by_cases hC : q C <;>
    simp [hA, hB, hC, Finset.card_insert_of_not_mem, Finset.mem_insert,
      Finset.mem_filter, Finset.mem_singleton, hAB, hAC, hBC]

set_option maxHeartbeats 1000000 in
/-- One step of a horizontal blinker whose three cells are strictly
interior (so every potential birth is in bounds): it becomes the vertical
blinker at the same centre. -/
lemma blinker_step_h (w h : Nat) (a b : Int)
    (hw2 : w ≤ 32767) (hh2 : h ≤ 32767)
    (hm1 : 1 ≤ a - 1) (hm2 : a + 1 ≤ (w : Int) - 2)
    (hm3 : 1 ≤ b) (hm4 : b ≤ (h : Int) - 2) :
    (Board.mk w h {Point.mk (a - 1) b, Point.mk a b,
      Point.mk (a + 1) b}).update_cells.occupied_cells =
      {Point.mk a (b - 1), Point.mk a b, Point.mk a (b + 1)} := by
  have hw1 : 1 ≤ w := by omega
  have hh1 : 1 ≤ h := by omega
  have hAB : Point.mk (a - 1) b ≠ Point.mk a b := by
    intro he; injection he with h1 h2; omega
  have hAC : Point.mk (a - 1) b ≠ Point.mk (a + 1) b := by
    intro he; injection he with h1 h2; omega
  have hBC : Point.mk a b ≠ Point.mk (a + 1) b := by
    intro he; injection he with h1 h2; omega
  have hinv : ∀ p ∈ ({Point.mk (a - 1) b, Point.mk a b,
      Point.mk (a + 1) b} : Finset Point), inBounds w h p := by
    intro p hp
    simp only [Finset.mem_insert, Finset.mem_singleton] at hp
    rcases hp with rfl | rfl | rfl <;> (rw [inBounds_mk]; omega)
  have hA := hinv (Point.mk (a - 1) b) (by simp)
  have hB := hinv (Point.mk a b) (by simp)
  have hC := hinv (Point.mk (a + 1) b) (by simp)
  ext q
  rw [mem_update_cells_iff hw1 hw2 hh1 hh2 hinv q]
  have hcnt : refCount (Board.mk w h {Point.mk (a - 1) b, Point.mk a b,
      Point.mk (a + 1) b}) q =
      (if adjacent (Point.mk (a - 1) b) q ∧ inBounds w h (Point.mk (a - 1) b)
        then 1 else 0) +
      (if adjacent (Point.mk a b) q ∧ inBounds w h (Point.mk a b)
        then 1 else 0) +
      (if adjacent (Point.mk (a + 1) b) q ∧ inBounds w h (Point.mk (a + 1) b)
        then 1 else 0) := by
    unfold refCount
    exact card_filter_triple _ _ _ hAB hAC hBC _
  rw [hcnt]
  simp only [hA, hB, hC, and_true]
  simp only [Finset.mem_insert, Finset.mem_singleton, Point.eq_iff, adjacent,
    inBounds]
  split_ifs <;> omega

set_option maxHeartbeats 1000000 in
/-- One step of a vertical blinker whose three cells are strictly interior:
it becomes the horizontal blinker at the same centre. -/
lemma blinker_step_v (w h : Nat) (a b : Int)
    (hw2 : w ≤ 32767) (hh2 : h ≤ 32767)
    (hm1 : 1 ≤ a) (hm2 : a ≤ (w : Int) - 2)
    (hm3 : 1 ≤ b - 1) (hm4 : b + 1 ≤ (h : Int) - 2) :
    (Board.mk w h {Point.mk a (b - 1), Point.mk a b,
      Point.mk a (b + 1)}).update_cells.occupied_cells =
      {Point.mk (a - 1) b, Point.mk a b, Point.mk (a + 1) b} := by
  have hw1 : 1 ≤ w := by omega
  have hh1 : 1 ≤ h := by omega
  have hAB : Point.mk a (b - 1) ≠ Point.mk a b := by
    intro he; injection he with h1 h2; omega
  have hAC : Point.mk a (b - 1) ≠ Point.mk a (b + 1) := by
    intro he; injection he with h1 h2; omega
  have hBC : Point.mk a b ≠ Point.mk a (b + 1) := by
    intro he; injection he with h1 h2; omega
  have hinv : ∀ p ∈ ({Point.mk a (b - 1), Point.mk a b,
      Point.mk a (b + 1)} : Finset Point), inBounds w h p := by
    intro p hp
    simp only [Finset.mem_insert, Finset.mem_singleton] at hp
    rcases hp with rfl | rfl | rfl <;> (rw [inBounds_mk]; omega)
  have hA := hinv (Point.mk a (b - 1)) (by simp)
  have hB := hinv (Point.mk a b) (by simp)
  have hC := hinv (Point.mk a (b + 1)) (by simp)
  ext q
  rw [mem_update_cells_iff hw1 hw2 hh1 hh2 hinv q]
  have hcnt : refCount (Board.mk w h {Point.mk a (b - 1), Point.mk a b,
      Point.mk a (b + 1)}) q =
      (if adjacent (Point.mk a (b - 1)) q ∧ inBounds w h (Point.mk a (b - 1))
        then 1 else 0) +
      (if adjacent (Point.mk a b) q ∧ inBounds w h (Point.mk a b)
        then 1 else 0) +
      (if adjacent (Point.mk a (b + 1)) q ∧ inBounds w h (Point.mk a (b + 1))
        then 1 else 0) := by
    unfold refCount
    exact card_filter_triple _ _ _ hAB hAC hBC _
  rw [hcnt]
  simp only [hA, hB, hC, and_true]
  simp only [Finset.mem_insert, Finset.mem_singleton, Point.eq_iff, adjacent,
    inBounds]
  split_ifs <;> omega

/-- C4, counterexample: on a `65540 × 7` board the width is not
representable in `i16` (`65540 as i16 = 4`), so `update_cells` believes the
right edge is at `x = 3`; a horizontal blinker at `(2..4, 3)`, all of whose
cells and neighbours avoid the real edges (`x ∈ [1,5] ⊆ [1,65538]`,
`y ∈ [2,4] ⊆ [1,5]`), does not return to itself after two steps. -/
theorem blinker_counterexample :
    ((1 : Int) ≤ 3 - 2 ∧ (3 : Int) + 2 ≤ 65540 - 2 ∧
      (1 : Int) ≤ 3 - 1 ∧ (3 : Int) + 1 ≤ 7 - 2) ∧
    ((Board.mk 65540 7 {Point.mk 2 3, Point.mk 3 3,
      Point.mk 4 3}).update_cells.update_cells).occupied_cells ≠
      {Point.mk 2 3, Point.mk 3 3, Point.mk 4 3} := by
  decide

/-- C4, amended: on an empty board of `i16`-representable dimensions, three
collinear adjacent live cells — horizontal or vertical — placed so that
none of the three cells nor any of their 8-neighbours touches the board
edge return to exactly the original occupied set after two applications of
`update_cells` (the blinker oscillates with period 2).  Each orientation
carries its own edge condition: a horizontal blinker centred at `(a, b)`
has neighbours spanning `x ∈ [a-2, a+2]`, `y ∈ [b-1, b+1]`; a vertical one
spans `x ∈ [a-1, a+1]`, `y ∈ [b-2, b+2]`. -/
theorem blinker_period_two (w h : Nat) (a b : Int)
    (hw2 : w ≤ 32767) (hh2 : h ≤ 32767) :
    (1 ≤ a - 2 → a + 2 ≤ (w : Int) - 2 → 1 ≤ b - 1 → b + 1 ≤ (h : Int) - 2 →
      ((Board.mk w h {Point.mk (a - 1) b, Point.mk a b,
        Point.mk (a + 1) b}).update_cells.update_cells).occupied_cells =
        {Point.mk (a - 1) b, Point.mk a b, Point.mk (a + 1) b}) ∧
    (1 ≤ a - 1 → a + 1 ≤ (w : Int) - 2 → 1 ≤ b - 2 → b + 2 ≤ (h : Int) - 2 →
      ((Board.mk w h {Point.mk a (b - 1), Point.mk a b,
        Point.mk a (b + 1)}).update_cells.update_cells).occupied_cells =
        {Point.mk a (b - 1), Point.mk a b, Point.mk a (b + 1)}) := by
  constructor
  · intro hm1 hm2 hm3 hm4
    rw [show (Board.mk w h {Point.mk (a - 1) b, Point.mk a b,
        Point.mk (a + 1) b}).update_cells =
        Board.mk w h ((Board.mk w h {Point.mk (a - 1) b, Point.mk a b,
          Point.mk (a + 1) b}).update_cells.occupied_cells) from rfl,
      blinker_step_h w h a b hw2 hh2 (by omega) (by omega) (by omega)
        (by omega),
      blinker_step_v w h a b hw2 hh2 (by omega) (by omega) (by omega)
        (by omega)]
  · intro hm1 hm2 hm3 hm4
    rw [show (Board.mk w h {Point.mk a (b - 1), Point.mk a b,
        Point.mk a (b + 1)}).update_cells =
        Board.mk w h ((Board.mk w h {Point.mk a (b - 1), Point.mk a b,
          Point.mk a (b + 1)}).update_cells.occupied_cells) from rfl,
      blinker_step_v w h a b hw2 hh2 (by omega) (by omega) (by omega)
        (by omega),
      blinker_step_h w h a b hw2 hh2 (by omega) (by omega) (by omega)
        (by omega)]

/-- Witness for C4's amended theorem: blinkers centred at `(4, 4)` on a
`9 × 9` board. -/
theorem blinker_period_two_witness :
    ((9 : Nat) ≤ 32767 ∧ (9 : Nat) ≤ 32767) ∧
    ((1 ≤ (4 : Int) - 2 → (4 : Int) + 2 ≤ ((9 : Nat) : Int) - 2 →
        1 ≤ (4 : Int) - 1 → (4 : Int) + 1 ≤ ((9 : Nat) : Int) - 2 →
        ((Board.mk 9 9 {Point.mk (4 - 1) 4, Point.mk 4 4,
          Point.mk (4 + 1) 4}).update_cells.update_cells).occupied_cells =
          {Point.mk (4 - 1) 4, Point.mk 4 4, Point.mk (4 + 1) 4}) ∧
      (1 ≤ (4 : Int) - 1 → (4 : Int) + 1 ≤ ((9 : Nat) : Int) - 2 →
        1 ≤ (4 : Int) - 2 → (4 : Int) + 2 ≤ ((9 : Nat) : Int) - 2 →
        ((Board.mk 9 9 {Point.mk 4 (4 - 1), Point.mk 4 4,
          Point.mk 4 (4 + 1)}).update_cells.update_cells).occupied_cells =
          {Point.mk 4 (4 - 1), Point.mk 4 4, Point.mk 4 (4 + 1)})) :=
  ⟨⟨by norm_num, by norm_num⟩, blinker_period_two 9 9 4 4 (by norm_num)
    (by norm_num)⟩

/-- C9, counterexample: for a board width not representable in `i16`
(40000), the per-tick clamp bound `width as i16 - 1` equals `-25537`, so a
single move-right from the in-range cursor `(0, 0)` leaves the cursor at
`(-25537, 0)` — far outside `[0, width - 1]` — rather than in range. -/
theorem cursor_move_wraps_counterexample :
    inBounds 40000 5 (Point.mk 0 0) ∧
    (tick (Board.mk 40000 5 ∅)
      (GameState.mk true true (Point.mk 0 0) true '#' 30 false)
      (some Key.right) (fun i => (i, i))).2.1.cursor_position =
        Point.mk (-25537) 0 ∧
    ¬inBounds 40000 5 (tick (Board.mk 40000 5 ∅)
      (GameState.mk true true (Point.mk 0 0) true '#' 30 false)
      (some Key.right) (fun i => (i, i))).2.1.cursor_position := by
  decide
